import Mathlib

/-!
Verification development for the `cargo-spdx` build-event correlation pipeline.

The Rust sources are shallowly embedded: byte strings become `List Nat`
(one `Nat` per byte, exact for ASCII content), paths become explicit
component lists, the file system becomes a finite association list from
paths to line lists, and every fallible Rust function becomes a function
into `Except`.  Rust panics (`unwrap` on `None`) are modelled as a
distinguished `BuildErr.panic` outcome so they stay separate from
`Result`-style errors.
-/

set_option autoImplicit false
set_option maxRecDepth 16384

namespace CargoSpdx

/-! ## String helpers

Structural re-implementations of the string operations the embedded code
needs (`starts_with`, `splitn`-style splitting, prefix drop), defined by
recursion over the character list so that concrete runs evaluate by
`decide` and `rfl`. -/

/-- Whether the first list is a leading run of the second. -/
def leadsChars : List Char → List Char → Bool
  | [], _ => true
  | _ :: _, [] => false
  | a :: as, b :: bs => if a = b then leadsChars as bs else false

/-- Rust `str::starts_with`. -/
def strStartsWith (s pre : String) : Bool := leadsChars pre.data s.data

/-- Split a character list at every separator character. -/
def splitOnChar (sep : Char) : List Char → List (List Char)
  | [] => [[]]
  | c :: rest =>
    let r := splitOnChar sep rest
    if c = sep then [] :: r
    else
      match r with
      | [] => [[c]]
      | g :: gs => (c :: g) :: gs

/-- Split a character list at every character satisfying the
predicate. -/
def splitOnPred (p : Char → Bool) : List Char → List (List Char)
  | [] => [[]]
  | c :: rest =>
    let r := splitOnPred p rest
    if p c then [] :: r
    else
      match r with
      | [] => [[c]]
      | g :: gs => (c :: g) :: gs

/-- Split a string at every occurrence of a separator character. -/
def strSplitOn (s : String) (sep : Char) : List String :=
  (splitOnChar sep s.data).map String.mk

/-- Drop the first `n` characters of a string. -/
def strDrop (s : String) (n : Nat) : String := String.mk (s.data.drop n)

/-- Drop the last `n` characters of a string. -/
def strDropRight (s : String) (n : Nat) : String :=
  String.mk (s.data.take (s.data.length - n))

/-- Concatenate strings with a separator between them. -/
def joinSep (sep : String) : List String → String
  | [] => ""
  | [x] => x
  | x :: xs => x ++ sep ++ joinSep sep xs

/-! ## 32-bit helpers for the hash functions

The `sha1` and `sha2` crates are external collaborators of the repository;
the digest algorithms themselves are the standard FIPS 180 functions,
implemented here over `Nat` with explicit reduction modulo `2 ^ 32`.
-/

/-- Addition modulo `2 ^ 32`. -/
def add32 (a b : Nat) : Nat := (a + b) % 2 ^ 32

/-- Left rotation of a 32-bit word. -/
def rotl32 (x n : Nat) : Nat := ((x <<< n) % 2 ^ 32) ||| (x >>> (32 - n))

/-- Right rotation of a 32-bit word. -/
def rotr32 (x n : Nat) : Nat := (x >>> n) ||| ((x <<< (32 - n)) % 2 ^ 32)

/-- Bitwise complement of a 32-bit word. -/
def not32 (x : Nat) : Nat := x ^^^ (2 ^ 32 - 1)

/-- Big-endian 4-byte encoding of a 32-bit word. -/
def beBytes4 (n : Nat) : List Nat :=
  [(n >>> 24) % 256, (n >>> 16) % 256, (n >>> 8) % 256, n % 256]

/-- Big-endian 8-byte encoding of a 64-bit length field. -/
def beBytes8 (n : Nat) : List Nat :=
  [(n >>> 56) % 256, (n >>> 48) % 256, (n >>> 40) % 256, (n >>> 32) % 256,
   (n >>> 24) % 256, (n >>> 16) % 256, (n >>> 8) % 256, n % 256]

/-- FIPS 180 message padding: append `0x80`, zero bytes up to 56 mod 64,
then the bit length as a big-endian 64-bit integer. -/
def padMessage (msg : List Nat) : List Nat :=
  let len := msg.length
  let zeros := (64 - ((len + 9) % 64)) % 64
  msg ++ [0x80] ++ List.replicate zeros 0 ++ beBytes8 (len * 8)

/-- Group bytes into big-endian 32-bit words. -/
def toWordsBE : List Nat → List Nat
  | a :: b :: c :: d :: rest =>
      (((a * 256 + b) * 256 + c) * 256 + d) :: toWordsBE rest
  | _ => []

/-- Fuel-driven splitting of a word list into 16-word blocks. -/
def chunks16Fuel : Nat → List Nat → List (List Nat)
  | 0, _ => []
  | _, [] => []
  | fuel + 1, ws => ws.take 16 :: chunks16Fuel fuel (ws.drop 16)

/-- Split a word list into 16-word blocks. -/
def chunks16 (ws : List Nat) : List (List Nat) := chunks16Fuel ws.length ws

/-! ## SHA-1 -/

/-- One step of the SHA-1 message-schedule extension. -/
def sha1ExtendStep (w : List Nat) : List Nat :=
  let n := w.length
  w ++ [rotl32 ((w.getD (n - 3) 0) ^^^ (w.getD (n - 8) 0) ^^^
                (w.getD (n - 14) 0) ^^^ (w.getD (n - 16) 0)) 1]

/-- Extend a 16-word block by `k` further schedule words. -/
def sha1ExtendAux (w : List Nat) : Nat → List Nat
  | 0 => w
  | k + 1 => sha1ExtendStep (sha1ExtendAux w k)

/-- The full 80-word SHA-1 message schedule. -/
def sha1Extend (w : List Nat) : List Nat := sha1ExtendAux w 64

/-- One SHA-1 compression round; the pair carries the round index and word. -/
def sha1Round (st : Nat × Nat × Nat × Nat × Nat) (iw : Nat × Nat) :
    Nat × Nat × Nat × Nat × Nat :=
  let (a, b, c, d, e) := st
  let (i, w) := iw
  let f :=
    if i < 20 then (b &&& c) ||| ((not32 b) &&& d)
    else if i < 40 then b ^^^ c ^^^ d
    else if i < 60 then (b &&& c) ||| (b &&& d) ||| (c &&& d)
    else b ^^^ c ^^^ d
  let k :=
    if i < 20 then 1518500249
    else if i < 40 then 1859775393
    else if i < 60 then 2400959708
    else 3395469782
  let temp := (rotl32 a 5 + f + e + k + w) % 2 ^ 32
  (temp, a, rotl32 b 30, c, d)

/-- Compress one 16-word block into the running SHA-1 state. -/
def sha1Block (h : Nat × Nat × Nat × Nat × Nat) (block : List Nat) :
    Nat × Nat × Nat × Nat × Nat :=
  let w := sha1Extend block
  let (a, b, c, d, e) := (w.enum).foldl sha1Round h
  (add32 h.1 a, add32 h.2.1 b, add32 h.2.2.1 c, add32 h.2.2.2.1 d, add32 h.2.2.2.2 e)

/-- SHA-1 digest (20 bytes) of a byte sequence. -/
def sha1Hash (msg : List Nat) : List Nat :=
  let blocks := chunks16 (toWordsBE (padMessage msg))
  let st := blocks.foldl sha1Block
    (1732584193, 4023233417, 2562383102, 271733878, 3285377520)
  beBytes4 st.1 ++ beBytes4 st.2.1 ++ beBytes4 st.2.2.1 ++
    beBytes4 st.2.2.2.1 ++ beBytes4 st.2.2.2.2

/-! ## SHA-256 -/

/-- The 64 SHA-256 round constants. -/
def sha256K : List Nat :=
  [1116352408, 1899447441, 3049323471, 3921009573, 961987163,
   1508970993, 2453635748, 2870763221, 3624381080, 310598401,
   607225278, 1426881987, 1925078388, 2162078206, 2614888103,
   3248222580, 3835390401, 4022224774, 264347078, 604807628,
   770255983, 1249150122, 1555081692, 1996064986, 2554220882,
   2821834349, 2952996808, 3210313671, 3336571891, 3584528711,
   113926993, 338241895, 666307205, 773529912, 1294757372,
   1396182291, 1695183700, 1986661051, 2177026350, 2456956037,
   2730485921, 2820302411, 3259730800, 3345764771, 3516065817,
   3600352804, 4094571909, 275423344, 430227734, 506948616,
   659060556, 883997877, 958139571, 1322822218, 1537002063,
   1747873779, 1955562222, 2024104815, 2227730452, 2361852424,
   2428436474, 2756734187, 3204031479, 3329325298]

/-- One step of the SHA-256 message-schedule extension. -/
def sha256ExtendStep (w : List Nat) : List Nat :=
  let n := w.length
  let w15 := w.getD (n - 15) 0
  let w2 := w.getD (n - 2) 0
  let s0 := rotr32 w15 7 ^^^ rotr32 w15 18 ^^^ (w15 >>> 3)
  let s1 := rotr32 w2 17 ^^^ rotr32 w2 19 ^^^ (w2 >>> 10)
  w ++ [(w.getD (n - 16) 0 + s0 + w.getD (n - 7) 0 + s1) % 2 ^ 32]

/-- Extend a 16-word block by `k` further schedule words. -/
def sha256ExtendAux (w : List Nat) : Nat → List Nat
  | 0 => w
  | k + 1 => sha256ExtendStep (sha256ExtendAux w k)

/-- The full 64-word SHA-256 message schedule. -/
def sha256Extend (w : List Nat) : List Nat := sha256ExtendAux w 48

/-- SHA-256 working state, eight 32-bit words. -/
structure Sha256St where
  a : Nat
  b : Nat
  c : Nat
  d : Nat
  e : Nat
  f : Nat
  g : Nat
  h : Nat
deriving Repr, DecidableEq

/-- One SHA-256 compression round; the pair carries the constant and word. -/
def sha256Round (st : Sha256St) (kw : Nat × Nat) : Sha256St :=
  let s1 := rotr32 st.e 6 ^^^ rotr32 st.e 11 ^^^ rotr32 st.e 25
  let ch := (st.e &&& st.f) ^^^ ((not32 st.e) &&& st.g)
  let temp1 := (st.h + s1 + ch + kw.1 + kw.2) % 2 ^ 32
  let s0 := rotr32 st.a 2 ^^^ rotr32 st.a 13 ^^^ rotr32 st.a 22
  let maj := (st.a &&& st.b) ^^^ (st.a &&& st.c) ^^^ (st.b &&& st.c)
  let temp2 := (s0 + maj) % 2 ^ 32
  ⟨(temp1 + temp2) % 2 ^ 32, st.a, st.b, st.c,
   (st.d + temp1) % 2 ^ 32, st.e, st.f, st.g⟩

/-- Compress one 16-word block into the running SHA-256 state. -/
def sha256Block (h : Sha256St) (block : List Nat) : Sha256St :=
  let w := sha256Extend block
  let st := (sha256K.zip w).foldl sha256Round h
  ⟨add32 h.a st.a, add32 h.b st.b, add32 h.c st.c, add32 h.d st.d,
   add32 h.e st.e, add32 h.f st.f, add32 h.g st.g, add32 h.h st.h⟩

/-- SHA-256 digest (32 bytes) of a byte sequence. -/
def sha256Hash (msg : List Nat) : List Nat :=
  let blocks := chunks16 (toWordsBE (padMessage msg))
  let st := blocks.foldl sha256Block
    ⟨1779033703, 3144134277, 1013904242, 2773480762,
     1359893119, 2600822924, 528734635, 1541459225⟩
  beBytes4 st.a ++ beBytes4 st.b ++ beBytes4 st.c ++ beBytes4 st.d ++
    beBytes4 st.e ++ beBytes4 st.f ++ beBytes4 st.g ++ beBytes4 st.h

/-! ## Hex encoding (the hex crate's lowercase encode) -/

/-- Lowercase hexadecimal digit for a value below 16. -/
def hexDigit (n : Nat) : Char :=
  if n < 10 then Char.ofNat (48 + n) else Char.ofNat (87 + n)

/-- Lowercase hexadecimal encoding of a byte sequence. -/
def hexEncode (bytes : List Nat) : String :=
  String.mk ((bytes.map (fun b => [hexDigit (b / 16), hexDigit (b % 16)])).flatten)

/-! ## Checksum Engine (src/document/mod.rs, calculate_checksums)

The hasher objects of the `sha1`/`sha2` crates are modelled as the list of
bytes written to them so far; `finalize` applies the digest function to
that list.  `io::copy(&mut file, &mut hasher)` writes the whole file
content into the hasher.
-/

/-- A `Sha1` hasher: the bytes absorbed so far. -/
structure Sha1Ctx where
  fed : List Nat
deriving Repr, DecidableEq

/-- A `Sha256` hasher: the bytes absorbed so far. -/
structure Sha256Ctx where
  fed : List Nat
deriving Repr, DecidableEq

/-- `Sha1::new()`. -/
def Sha1Ctx.new : Sha1Ctx := ⟨[]⟩

/-- `Sha256::new()`. -/
def Sha256Ctx.new : Sha256Ctx := ⟨[]⟩

/-- `io::copy(&mut file, &mut sha256)`: absorb the whole file content. -/
def ioCopy (content : List Nat) (ctx : Sha256Ctx) : Sha256Ctx :=
  ⟨ctx.fed ++ content⟩

/-- `Sha1::finalize`: digest of everything absorbed. -/
def Sha1Ctx.finalize (ctx : Sha1Ctx) : List Nat := sha1Hash ctx.fed

/-- `Sha256::finalize`: digest of everything absorbed. -/
def Sha256Ctx.finalize (ctx : Sha256Ctx) : List Nat := sha256Hash ctx.fed

/-- SPDX checksum algorithm tag.  The schema module (not present under
`src/`) has further variants; only these two are produced. -/
inductive Algorithm where
  | sha1
  | sha256
deriving Repr, DecidableEq

/-- One checksum entry of an SPDX file record. -/
structure FileChecksum where
  algorithm : Algorithm
  checksum_value : String
deriving Repr, DecidableEq

/-- Model of `calculate_checksums` (src/document/mod.rs lines 130-151),
applied to the content of a file that opened successfully.  It mirrors the
source statement by statement: the file content is streamed into the
SHA-256 hasher by `io::copy`, while the SHA-1 hasher is finalized without
ever being written to. -/
def calculate_checksums (content : List Nat) : List FileChecksum :=
  let sha256 := Sha256Ctx.new
  let sha1 := Sha1Ctx.new
  let sha256 := ioCopy content sha256
  let sha256_hash := sha256.finalize
  let sha1_hash := sha1.finalize
  [{ algorithm := Algorithm.sha1, checksum_value := hexEncode sha1_hash },
   { algorithm := Algorithm.sha256, checksum_value := hexEncode sha256_hash }]

/-! ## Paths (cargo_metadata::camino::Utf8PathBuf)

A path is a flag for absoluteness plus the list of components.  Components
are assumed normalized (no `.` or `..` entries), which holds for every
path handled by the correlator.
-/

/-- A UTF-8 path: absoluteness flag plus components. -/
structure Path where
  absolute : Bool
  comps : List String
deriving Repr, DecidableEq

/-- Apply a function to the last element of a list. -/
def mapLast (f : String → String) : List String → List String
  | [] => []
  | [x] => [f x]
  | x :: xs => x :: mapLast f xs

/-- `Utf8Path::file_name`: the final component. -/
def Path.fileName (p : Path) : Option String := p.comps.getLast?

/-- `Utf8Path::parent`: drop the final component; `none` at a root. -/
def Path.parent (p : Path) : Option Path :=
  match p.comps with
  | [] => none
  | _ => some ⟨p.absolute, p.comps.dropLast⟩

/-- Extension of a file name: the part after the last dot, none for a
dotless or leading-dot-only name (Rust `Path::extension` semantics). -/
def extOfName (name : String) : Option String :=
  match strSplitOn name '.' with
  | [] => none
  | [_] => none
  | first :: rest => if first = "" ∧ rest.length = 1 then none else rest.getLast?

/-- `Utf8Path::extension`. -/
def Path.ext (p : Path) : Option String := p.fileName.bind extOfName

/-- `Utf8PathBuf::set_file_name`: replace (or add) the final component. -/
def Path.setFileName (p : Path) (s : String) : Path :=
  match p.comps with
  | [] => ⟨p.absolute, [s]⟩
  | cs => ⟨p.absolute, mapLast (fun _ => s) cs⟩

/-- File-name stem relative to `extOfName`. -/
def stemOfName (name : String) : String :=
  match extOfName name with
  | some e => strDropRight name (e.length + 1)
  | none => name

/-- `Utf8PathBuf::set_extension`. -/
def Path.setExt (p : Path) (e : String) : Path :=
  match p.fileName with
  | none => p
  | some n => p.setFileName (stemOfName n ++ "." ++ e)

/-- Render a path as the string Rust's `as_str` would produce. -/
def pathToStr (p : Path) : String :=
  (if p.absolute then "/" else "") ++ joinSep "/" p.comps

/-- Parse a path string into components (`Utf8PathBuf::from`). -/
def strToPath (s : String) : Path :=
  if strStartsWith s "/" then ⟨true, strSplitOn (strDrop s 1) '/'⟩
  else ⟨false, strSplitOn s '/'⟩

/-- Append a suffix to the final component, modelling
`format!("\x7b\x7d.d", executable)` followed by `Utf8PathBuf::from`. -/
def Path.appendToName (p : Path) (suffix : String) : Path :=
  match p.comps with
  | [] => ⟨p.absolute, [suffix]⟩
  | cs => ⟨p.absolute, mapLast (fun c => c ++ suffix) cs⟩

/-- Strip the longest common leading run of two component lists. -/
def stripCommon : List String → List String → List String × List String
  | x :: xs, y :: ys =>
      if x = y then stripCommon xs ys else (x :: xs, y :: ys)
  | xs, ys => (xs, ys)

/-- Model of `pathdiff::diff_utf8_paths` (external collaborator crate) on
normalized component lists: mixed absoluteness is `none` unless the path
itself is absolute; otherwise strip the common root and climb out of the
remaining base components. -/
def diff_utf8_paths (path base : Path) : Option Path :=
  if path.absolute ≠ base.absolute then
    if path.absolute then some path else none
  else
    let rest := stripCommon path.comps base.comps
    some ⟨false, rest.2.map (fun _ => "..") ++ rest.1⟩

/-! ## Identifier sanitization (src/document/mod.rs, File::try_from_file) -/

/-- Model of Rust std `char::is_alphanumeric` (an external collaborator of
the repository).  It is exact on the Basic Latin and Latin-1 Supplement
blocks, the character range exercised in this development; codepoints of
0x100 and above are treated as non-alphanumeric. -/
def rustIsAlphanumeric (c : Char) : Bool :=
  let n := c.toNat
  decide ((48 ≤ n ∧ n ≤ 57) ∨ (65 ≤ n ∧ n ≤ 90) ∨ (97 ≤ n ∧ n ≤ 122) ∨
    n = 0xAA ∨ n = 0xB5 ∨ n = 0xBA ∨
    n = 0xB2 ∨ n = 0xB3 ∨ n = 0xB9 ∨ (0xBC ≤ n ∧ n ≤ 0xBE) ∨
    (0xC0 ≤ n ∧ n ≤ 0xFF ∧ n ≠ 0xD7 ∧ n ≠ 0xF7))

/-- The character set the spec allows in identifiers: `A-Z`, `a-z`,
`0-9`, dot and dash. -/
def specLegalChar (c : Char) : Bool :=
  let n := c.toNat
  decide ((48 ≤ n ∧ n ≤ 57) ∨ (65 ≤ n ∧ n ≤ 90) ∨ (97 ≤ n ∧ n ≤ 122) ∨
    n = 45 ∨ n = 46)

/-- The replacement condition of `File::try_from_file`: a character is
kept when it is alphanumeric, a dash or a dot. -/
def keepChar (c : Char) : Bool :=
  rustIsAlphanumeric c || c = '-' || c = '.'

/-- `str::replace` with the character-predicate pattern of
`File::try_from_file`: characters failing `keepChar` become a dash. -/
def sanitize (s : String) : String :=
  String.mk (s.data.map (fun c => if keepChar c then c else '-'))

/-! ## SPDX schema records

The schema module (`mod schema` of src/document/mod.rs) is not present
under `src/`; these records are modelled from the spec's data model (§3)
and from the fields the in-scope code reads and writes.  Fields the
correlator always sets to `None` carry no information for any claim and
are elided.
-/

/-- The constant placeholder used for license and copyright fields. -/
def NOASSERTION : String := "NOASSERTION"

/-- Cargo package identifier (opaque string from the build driver). -/
abbrev PackageId := String

/-- SPDX relationship type; the correlator uses exactly these three of
the schema's variants. -/
inductive RelationshipType where
  | contains
  | generatedFrom
  | dependsOn
deriving Repr, DecidableEq

/-- A directed, typed SPDX relationship (field order as in the Rust
struct literals of src/build.rs). -/
structure Relationship where
  comment : Option String
  related_spdx_element : String
  relationship_type : RelationshipType
  spdx_element_id : String
deriving Repr, DecidableEq

/-- SPDX file category; the correlator uses exactly these two of the
schema's variants. -/
inductive FileType where
  | source
  | binary
deriving Repr, DecidableEq

/-- An SPDX package record, with the fields `From<&cargo_metadata::Package>`
fills with data (constant-`None` fields elided). -/
structure Package where
  name : String
  spdxid : String
  version_info : Option String
  download_location : String
  homepage : Option String
  license_concluded : String
  license_declared : String
  copyright_text : String
  purl : String
deriving Repr, DecidableEq

/-- An SPDX file record, with the fields `File::try_from_file` fills with
data (constant-`None` fields elided). -/
structure File where
  checksums : Option (List FileChecksum)
  copyright_text : String
  file_name : String
  file_types : Option (List FileType)
  license_concluded : String
  spdxid : String
deriving Repr, DecidableEq

/-- The package metadata the dependency-graph resolver (`cargo metadata`)
returns for one package identifier. -/
structure MetaPackage where
  name : String
  version : String
  manifest_path : Path
  homepage : Option String
deriving Repr, DecidableEq

/-- Model of `impl From<&cargo_metadata::Package> for Package`
(src/document/mod.rs lines 40-74). -/
def Package.fromMeta (package : MetaPackage) : Package :=
  { name := package.name
  , spdxid := "SPDXRef-" ++ package.name ++ "-" ++ package.version
  , version_info := some package.version
  , download_location := NOASSERTION
  , homepage := package.homepage
  , license_concluded := NOASSERTION
  , license_declared := NOASSERTION
  , copyright_text := NOASSERTION
  , purl := "pkg:cargo/" ++ package.name ++ "@" ++ package.version }

/-! ## File system model -/

/-- The readable files on disk: an association of paths to content, the
content given as the list of text lines (for checksum purposes the bytes
are the lines joined by a newline; exact for ASCII content). -/
structure FS where
  entries : List (Path × List String)
deriving Repr

/-- Look a path up in the file system; `none` is an unreadable file. -/
def FS.read (fs : FS) (p : Path) : Option (List String) :=
  (fs.entries.find? (fun e => e.1 = p)).map (fun e => e.2)

/-- Byte content of a file given as lines. -/
def bytesOfLines (lines : List String) : List Nat :=
  (joinSep "\n" lines).data.map Char.toNat

/-- Errors of the embedded pipeline: a failed file read carrying the
path (Rust `io::Error` through `anyhow`), or a Rust panic
(`Option::unwrap` on `None`). -/
inductive BuildErr where
  | ioError (p : Path)
  | panic
deriving Repr, DecidableEq

/-- Model of `File::try_from_file` (src/document/mod.rs lines 88-125):
build the SPDX file record for `path`, naming it relative to `root`,
deriving the identifier from the optional package name and version plus
the relative name, sanitized; the checksum step fails when the file
cannot be read.  The `unwrap` on `pathdiff::diff_utf8_paths` is the
`panic` outcome. -/
def File.try_from_file (fs : FS) (path root : Path) (file_type : FileType)
    (package_name : Option String) (package_version : Option String) :
    Except BuildErr File :=
  match diff_utf8_paths path root with
  | none => Except.error BuildErr.panic
  | some rel =>
    let file_name := pathToStr rel
    let spdxid := sanitize ("SPDXRef-File-" ++
      ((package_name.map (fun n => n ++ "-")).getD "") ++
      ((package_version.map (fun v => v ++ "-")).getD "") ++ file_name)
    match fs.read path with
    | none => Except.error (BuildErr.ioError path)
    | some lines =>
      Except.ok
        { checksums := some (calculate_checksums (bytesOfLines lines))
        , copyright_text := NOASSERTION
        , file_name := file_name
        , file_types := some [file_type]
        , license_concluded := NOASSERTION
        , spdxid := spdxid }

/-! ## Event Correlator (src/build.rs) -/

/-- One parsed cargo build event (the fields of `cargo_metadata::Artifact`
that src/build.rs reads). -/
structure Artifact where
  package_id : PackageId
  filenames : List Path
  executable : Option Path
deriving Repr, DecidableEq

/-- The accumulator `CargoBuildInfo` of src/build.rs.  The package
`HashMap` is modelled as an association list in insertion order; lookups
return the first (and, by the insert-once discipline, only) binding. -/
structure CargoBuildInfo where
  packages : List (PackageId × Package)
  binaries : List (Path × PackageId)
  source_files : List File
  relationships : List Relationship
deriving Repr, DecidableEq

/-- The `Default::default()` starting accumulator. -/
def CargoBuildInfo.empty : CargoBuildInfo := ⟨[], [], [], []⟩

/-- First binding of a key in an association list (`HashMap::get`). -/
def lookupId (pid : PackageId) : List (PackageId × Package) → Option Package
  | [] => none
  | kv :: rest => if kv.1 = pid then some kv.2 else lookupId pid rest

/-- Specification form of the correlator's conditional package
insertion: insert a binding only when the key has no binding yet. -/
def insertNew (ps : List (PackageId × Package)) (pid : PackageId)
    (v : Package) : List (PackageId × Package) :=
  if (lookupId pid ps).isSome then ps else ps ++ [(pid, v)]

/-- Rust `str::split_whitespace`: split on whitespace, dropping empty
tokens. -/
def splitWs (s : String) : List String :=
  ((splitOnPred Char.isWhitespace s.data).map String.mk).filter
    (fun t => t ≠ "")

/-- Model of `collect_source_files` (src/build.rs lines 295-341).  Looks
up the owning package (`unwrap`, hence `panic` when absent), opens the
dep-info listing file (an I/O error when unreadable), finds the first
line whose prefix is `dep_info_entry`, converts every whitespace token
after the first into a file record — records whose construction fails are
silently discarded by `filter_map(Result::ok)` — then appends one
*contains* relationship per record and moves the records into the
collector.  `Vec::append` drains the local vector, so the function's own
return value is always the empty list. -/
def collect_source_files (fs : FS) (dep_info : Path) (package_root : Path)
    (package_id : PackageId) (collector : CargoBuildInfo)
    (dep_info_entry : String) :
    Except BuildErr (CargoBuildInfo × List File) :=
  match lookupId package_id collector.packages with
  | none => Except.error BuildErr.panic
  | some package =>
    match fs.read dep_info with
    | none => Except.error (BuildErr.ioError dep_info)
    | some lines =>
      let files :=
        match lines.find? (fun line => strStartsWith line dep_info_entry) with
        | some line =>
          ((splitWs line).drop 1).filterMap (fun tok =>
            (File.try_from_file fs (strToPath tok) package_root
              FileType.source (some package.name)
              package.version_info).toOption)
        | none => []
      let rels := files.map (fun file =>
        { comment := none
        , related_spdx_element := file.spdxid
        , relationship_type := RelationshipType.contains
        , spdx_element_id := package.spdxid : Relationship })
      Except.ok
        ({ collector with
           relationships := collector.relationships ++ rels
         , source_files := collector.source_files ++ files }, [])

/-- Model of `rmeta_to_dep_info` (src/build.rs lines 273-279): strip the
`lib` prefix from the file name and substitute the `.d` extension.  The
two `unwrap`s — a path without file name, and a file name that does not
start with `lib` — are the `none` (panic) outcome. -/
def rmeta_to_dep_info (rmeta_path : Path) : Option Path :=
  match rmeta_path.fileName with
  | none => none
  | some n =>
    if strStartsWith n "lib" then
      some ((rmeta_path.setFileName (strDrop n 3)).setExt "d")
    else none

/-- The rmeta half of the per-artifact work (src/build.rs lines 143-162):
find the first `.rmeta` artifact file, derive its dep-info path, and
collect the source files listed under the dep-info file's own entry. -/
def processRmeta (fs : FS) (package : MetaPackage) (artifact : Artifact)
    (collector : CargoBuildInfo) : Except BuildErr CargoBuildInfo :=
  match artifact.filenames.find? (fun f => f.ext = some "rmeta") with
  | none => Except.ok collector
  | some rmeta =>
    match rmeta_to_dep_info rmeta with
    | none => Except.error BuildErr.panic
    | some dep_info =>
      match package.manifest_path.parent with
      | none => Except.error BuildErr.panic
      | some root =>
        (collect_source_files fs dep_info root artifact.package_id
          collector (pathToStr dep_info)).map Prod.fst

/-- The executable half of the per-artifact work (src/build.rs lines
164-184): record the (binary, package) pair and collect the source files
listed in the executable's own dep-info file under the executable's own
path. -/
def processExecutable (fs : FS) (package : MetaPackage) (artifact : Artifact)
    (collector : CargoBuildInfo) : Except BuildErr CargoBuildInfo :=
  match artifact.executable with
  | none => Except.ok collector
  | some exe =>
    let collector := { collector with
      binaries := collector.binaries ++ [(exe, artifact.package_id)] }
    let dep_info := exe.appendToName ".d"
    match package.manifest_path.parent with
    | none => Except.error BuildErr.panic
    | some root =>
      (collect_source_files fs dep_info root artifact.package_id
        collector (pathToStr exe)).map Prod.fst

/-- The per-event body of `process_json_messages` (src/build.rs lines
134-187): resolve the owning package from the metadata graph, insert its
record if the identifier is new, then handle the rmeta and executable
halves. -/
def processArtifact (metadata : PackageId → MetaPackage) (fs : FS)
    (collector : CargoBuildInfo) (artifact : Artifact) :
    Except BuildErr CargoBuildInfo :=
  let package := metadata artifact.package_id
  let collector :=
    if (lookupId artifact.package_id collector.packages).isSome then collector
    else { collector with
      packages := collector.packages ++
        [(artifact.package_id, Package.fromMeta package)] }
  match processRmeta fs package artifact collector with
  | Except.error e => Except.error e
  | Except.ok collector => processExecutable fs package artifact collector

/-- Sequential processing of the parsed artifact events
(`try_for_each`). -/
def runArtifacts (metadata : PackageId → MetaPackage) (fs : FS) :
    CargoBuildInfo → List Artifact → Except BuildErr CargoBuildInfo
  | collector, [] => Except.ok collector
  | collector, a :: rest =>
    match processArtifact metadata fs collector a with
    | Except.ok collector' => runArtifacts metadata fs collector' rest
    | Except.error e => Except.error e

/-- Model of `process_json_messages` (src/build.rs lines 112-190): each
stdout line either parses as an artifact event (`some`) or does not
(`none`, a malformed or informational line); the `filter_map` keeps only
the parsed events, which are processed in order starting from the default
accumulator. -/
def process_json_messages (metadata : PackageId → MetaPackage) (fs : FS)
    (msgs : List (Option Artifact)) : Except BuildErr CargoBuildInfo :=
  runArtifacts metadata fs CargoBuildInfo.empty (msgs.filterMap id)

/-! ## Document Assembler (src/build.rs, produce_sbom) -/

/-- The part of the assembled SPDX document the correlation pipeline
fills in: file records, package records and relationships.  Document
name, namespace and creation info come from out-of-scope collaborators
(output manager, git) and are elided. -/
structure Document where
  files : List File
  packages : List Package
  relationships : List Relationship
deriving Repr, DecidableEq

/-- Model of `produce_sbom` (src/build.rs lines 200-270): clone the
accumulated lists, create the binary's own file record (panicking on a
root binary path, failing on an unreadable binary), append the
*generated-from* relationship to the producing package (`unwrap`, hence
panic, when the package is absent) and one *depends-on* relationship per
accumulated package.  Writing the document out is the out-of-scope
renderer's job; the assembled document is returned. -/
def produce_sbom (fs : FS) (binary : Path) (cargo_build_info : CargoBuildInfo)
    (package_id : PackageId) : Except BuildErr Document :=
  let relationships := cargo_build_info.relationships
  let files := cargo_build_info.source_files
  let packages := cargo_build_info.packages
  match binary.parent with
  | none => Except.error BuildErr.panic
  | some par =>
    match File.try_from_file fs binary par FileType.binary none none with
    | Except.error e => Except.error e
    | Except.ok file =>
      let binary_spdxid := file.spdxid
      let files := files ++ [file]
      match lookupId package_id packages with
      | none => Except.error BuildErr.panic
      | some producing =>
        let relationships := relationships ++
          [{ comment := none
           , related_spdx_element := producing.spdxid
           , relationship_type := RelationshipType.generatedFrom
           , spdx_element_id := binary_spdxid }]
        let relationships := relationships ++
          packages.map (fun q =>
            { comment := none
            , related_spdx_element := q.2.spdxid
            , relationship_type := RelationshipType.dependsOn
            , spdx_element_id := binary_spdxid : Relationship })
        Except.ok
          { files := files
          , packages := packages.map (fun q => q.2)
          , relationships := relationships }

/-! ## The build subcommand (src/build.rs, build) -/

/-- Outcome of one `cargo spdx build` invocation, from the point where
the subprocess has been spawned: a `std::process::exit` with the child's
code, the list of assembled documents, or an error. -/
inductive BuildResult where
  | exited (code : Nat)
  | ok (docs : List Document)
  | error (e : BuildErr)
deriving Repr, DecidableEq

/-- Sequential document assembly for every discovered binary. -/
def produceAll (fs : FS) (info : CargoBuildInfo) :
    List (Path × PackageId) → Except BuildErr (List Document)
  | [] => Except.ok []
  | bp :: rest =>
    match produce_sbom fs bp.1 info bp.2 with
    | Except.error e => Except.error e
    | Except.ok doc =>
      match produceAll fs info rest with
      | Except.error e => Except.error e
      | Except.ok docs => Except.ok (doc :: docs)

/-- Model of the tail of `build` (src/build.rs lines 95-108): drain the
child's stdout through `process_json_messages`; then check the child's
exit status — `exit_code = some 0` is success, anything else (a non-zero
code, or none when killed by a signal) makes the invocation call
`std::process::exit` with the child's code or 1, assembling no document;
on success one SBOM is produced per discovered binary. -/
def build (metadata : PackageId → MetaPackage) (fs : FS)
    (msgs : List (Option Artifact)) (exit_code : Option Nat) : BuildResult :=
  match process_json_messages metadata fs msgs with
  | Except.error e => BuildResult.error e
  | Except.ok info =>
    if exit_code ≠ some 0 then BuildResult.exited (exit_code.getD 1)
    else
      match produceAll fs info info.binaries with
      | Except.error e => BuildResult.error e
      | Except.ok docs => BuildResult.ok docs

/-! ## Concrete fixtures for witnesses and counterexamples -/

/-- A single package's metadata, rooted at `/pkg`. -/
def mpkg : MetaPackage :=
  ⟨"mypkg", "1.0.0", ⟨true, ["pkg", "Cargo.toml"]⟩, none⟩

/-- A metadata graph resolving every identifier to `mpkg`. -/
def meta0 : PackageId → MetaPackage := fun _ => mpkg

/-- An empty file system. -/
def fsEmpty : FS := ⟨[]⟩

/-- A collector that has already recorded `mpkg` under id `p1`. -/
def cWithP1 : CargoBuildInfo := ⟨[("p1", Package.fromMeta mpkg)], [], [], []⟩

/-- The dep-info listing path `/pkg/foo.d`. -/
def depFoo : Path := ⟨true, ["pkg", "foo.d"]⟩

/-- A file system whose listing names two source files of which only
`/pkg/a.rs` is readable. -/
def fsDrop : FS :=
  ⟨[(depFoo, ["/pkg/foo.d: /pkg/a.rs /pkg/b.rs"]),
    (⟨true, ["pkg", "a.rs"]⟩, ["fn"])]⟩

/-- A file system whose listing exists but has no matching line. -/
def fsNoMatch : FS := ⟨[(depFoo, ["other: x"])]⟩

/-- A source path whose file name contains the non-ASCII alphanumeric
letter é. -/
def pathCafe : Path := ⟨true, ["pkg", "café.rs"]⟩

/-- A file system carrying that file. -/
def fsCafe : FS := ⟨[(pathCafe, ["x"])]⟩

/-- An rmeta artifact path with the conventional `lib` name prefix. -/
def rmetaLib : Path := ⟨true, ["pkg", "target", "libfoo.rmeta"]⟩

/-- An artifact event carrying that rmeta file. -/
def artRmeta : Artifact := ⟨"p1", [rmetaLib], none⟩

/-- A file system whose listing names two readable source files whose
sanitized identifiers coincide (`a_b.rs` and `a-b.rs`). -/
def fsCollide : FS :=
  ⟨[(⟨true, ["pkg", "target", "foo.d"]⟩,
     ["/pkg/target/foo.d: /pkg/a_b.rs /pkg/a-b.rs"]),
    (⟨true, ["pkg", "a_b.rs"]⟩, ["x"]),
    (⟨true, ["pkg", "a-b.rs"]⟩, ["y"])]⟩

/-- The produced binary `/bin/app`. -/
def exeApp : Path := ⟨true, ["bin", "app"]⟩

/-- An artifact event carrying only that executable. -/
def artExe : Artifact := ⟨"p1", [], some exeApp⟩

/-- A file system carrying the binary and its (entry-only) listing. -/
def fsExe : FS := ⟨[(⟨true, ["bin", "app.d"]⟩, ["/bin/app: "]), (exeApp, ["bin"])]⟩

/-- An rmeta artifact path without the `lib` name prefix. -/
def artNoLib : Artifact := ⟨"p1", [⟨true, ["pkg", "foo.rmeta"]⟩], none⟩

/-- An artifact event with neither rmeta file nor executable. -/
def artPlain : Artifact := ⟨"p1", [], none⟩

/-- The file record `produce_sbom` creates for `/bin/app` under `fsExe`:
the SHA-1 entry is the digest of the empty byte string (see C1), the
SHA-256 entry the digest of the content `bin`. -/
def appFile : File :=
  { checksums := some
      [{ algorithm := Algorithm.sha1
       , checksum_value := "da39a3ee5e6b4b0d3255bfef95601890afd80709" },
       { algorithm := Algorithm.sha256
       , checksum_value :=
           "51a1f05af85e342e3c849b47d387086476282d5f50dc240c19216d6edfb1eb5a" }]
  , copyright_text := NOASSERTION
  , file_name := "app"
  , file_types := some [FileType.binary]
  , license_concluded := NOASSERTION
  , spdxid := "SPDXRef-File-app" }

/-- The correlation state after processing `artExe` under `fsExe`. -/
def infoExe : CargoBuildInfo :=
  ⟨[("p1", Package.fromMeta mpkg)], [(exeApp, "p1")], [], []⟩

/-- The document `produce_sbom` assembles for `/bin/app` from
`infoExe`. -/
def docExe : Document :=
  { files := [appFile]
  , packages := [Package.fromMeta mpkg]
  , relationships :=
      [{ comment := none
       , related_spdx_element := "SPDXRef-mypkg-1.0.0"
       , relationship_type := RelationshipType.generatedFrom
       , spdx_element_id := "SPDXRef-File-app" },
       { comment := none
       , related_spdx_element := "SPDXRef-mypkg-1.0.0"
       , relationship_type := RelationshipType.dependsOn
       , spdx_element_id := "SPDXRef-File-app" }] }

/-- Checks the lib-prefixed-name precondition of `rmeta_to_dep_info`: a
file name is present and starts with `lib`. -/
def libNameOk : Option String → Bool
  | none => false
  | some n => strStartsWith n "lib"

/-- Whether an identifier-derivation result has a legal identifier,
vacuously true on errors. -/
def spdxidLegal (r : Except BuildErr File) : Bool :=
  match r with
  | Except.ok f => f.spdxid.data.all keepChar
  | Except.error _ => true

/-! ## Helper lemmas -/

theorem lookupId_append (pid : PackageId) (l1 l2 : List (PackageId × Package)) :
    lookupId pid (l1 ++ l2) =
      match lookupId pid l1 with
      | some v => some v
      | none => lookupId pid l2 := by
  induction l1 with
  | nil => simp [lookupId]
  | cons kv rest ih =>
    by_cases h : kv.1 = pid <;> simp [lookupId, h, ih]

theorem lookupId_none_iff (pid : PackageId) (l : List (PackageId × Package)) :
    lookupId pid l = none ↔ pid ∉ l.map Prod.fst := by
  induction l with
  | nil => simp [lookupId]
  | cons kv rest ih =>
    by_cases h : kv.1 = pid
    · simp [lookupId, h]
    · simp only [lookupId, if_neg h, ih, List.map_cons, List.mem_cons, not_or]
      exact ⟨fun hn => ⟨fun he => h he.symm, hn⟩, fun hp => hp.2⟩

theorem lookupId_isSome_iff (pid : PackageId) (l : List (PackageId × Package)) :
    (lookupId pid l).isSome = true ↔ pid ∈ l.map Prod.fst := by
  rw [Option.isSome_iff_ne_none, not_iff_comm, lookupId_none_iff]

theorem lookupId_insertNew (pid q : PackageId) (v : Package)
    (ps : List (PackageId × Package)) :
    lookupId pid (insertNew ps q v) =
      if (lookupId pid ps).isSome then lookupId pid ps
      else if pid = q then some v else none := by
  unfold insertNew
  by_cases hq : (lookupId q ps).isSome = true
  · rw [if_pos hq]
    cases ho : lookupId pid ps with
    | some w => simp [ho]
    | none =>
      by_cases hpq : pid = q
      · subst hpq; rw [ho] at hq; simp at hq
      · simp [ho, hpq]
  · rw [if_neg hq, lookupId_append]
    cases ho : lookupId pid ps with
    | some w => simp
    | none =>
      by_cases hpq : pid = q
      · subst hpq; simp [lookupId]
      · have hqp : ¬q = pid := fun hx => hpq hx.symm
        simp [lookupId, hpq, hqp]

theorem insertNew_nodupKeys (ps : List (PackageId × Package))
    (q : PackageId) (v : Package) (h : (ps.map Prod.fst).Nodup) :
    ((insertNew ps q v).map Prod.fst).Nodup := by
  unfold insertNew
  by_cases hq : (lookupId q ps).isSome = true
  · simp [hq, h]
  · have hnone : lookupId q ps = none := by
      cases ho : lookupId q ps
      · rfl
      · rw [ho] at hq; simp at hq
    have hnm : q ∉ ps.map Prod.fst := (lookupId_none_iff q ps).mp hnone
    rw [if_neg hq]
    simp only [List.map_append, List.map_cons, List.map_nil]
    rw [List.nodup_append]
    exact ⟨h, List.nodup_singleton q, by
      intro x hx hx'
      rw [List.mem_singleton] at hx'
      exact hnm (hx' ▸ hx)⟩

theorem insertNew_values (ps : List (PackageId × Package)) (q : PackageId)
    (v : Package) (metadata : PackageId → MetaPackage)
    (hv : v = Package.fromMeta (metadata q))
    (h : ∀ kv ∈ ps, kv.2 = Package.fromMeta (metadata kv.1)) :
    ∀ kv ∈ insertNew ps q v, kv.2 = Package.fromMeta (metadata kv.1) := by
  unfold insertNew
  by_cases hq : (lookupId q ps).isSome = true
  · rw [if_pos hq]; exact h
  · rw [if_neg hq]
    intro kv hkv
    rcases List.mem_append.mp hkv with hold | hnew
    · exact h kv hold
    · rw [List.mem_singleton] at hnew
      subst hnew; exact hv

/-! ## Structure of the correlator's state transitions -/

theorem collect_ok_spec {fs : FS} {dep root : Path} {pid : PackageId}
    {c c' : CargoBuildInfo} {key : String} {ret : List File}
    (h : collect_source_files fs dep root pid c key = Except.ok (c', ret)) :
    ∃ pk files, lookupId pid c.packages = some pk ∧ ret = [] ∧
      c' = { c with
        relationships := c.relationships ++ files.map (fun file =>
          { comment := none
          , related_spdx_element := file.spdxid
          , relationship_type := RelationshipType.contains
          , spdx_element_id := pk.spdxid : Relationship })
      , source_files := c.source_files ++ files } := by
  unfold collect_source_files at h
  cases hl : lookupId pid c.packages with
  | none => rw [hl] at h; exact absurd h (by simp)
  | some pk =>
    rw [hl] at h
    cases hr : fs.read dep with
    | none => rw [hr] at h; exact absurd h (by simp)
    | some lines =>
      rw [hr] at h
      simp only [Except.ok.injEq, Prod.mk.injEq] at h
      exact ⟨pk, _, rfl, h.2.symm, h.1.symm⟩

theorem processRmeta_ok_spec {fs : FS} {pkg : MetaPackage} {a : Artifact}
    {c c' : CargoBuildInfo} (h : processRmeta fs pkg a c = Except.ok c') :
    c'.packages = c.packages ∧ c'.binaries = c.binaries ∧
    ∀ r ∈ c'.relationships,
      r ∈ c.relationships ∨ r.relationship_type = RelationshipType.contains := by
  unfold processRmeta at h
  cases hf : a.filenames.find? (fun f => Path.ext f = some "rmeta") with
  | none =>
    rw [hf] at h
    dsimp only at h
    simp only [Except.ok.injEq] at h
    subst h
    exact ⟨rfl, rfl, fun r hr => Or.inl hr⟩
  | some rmeta =>
    rw [hf] at h
    dsimp only at h
    cases hd : rmeta_to_dep_info rmeta with
    | none => rw [hd] at h; exact absurd h (by simp)
    | some dep =>
      rw [hd] at h
      dsimp only at h
      cases hp : pkg.manifest_path.parent with
      | none => rw [hp] at h; exact absurd h (by simp)
      | some root =>
        rw [hp] at h
        dsimp only at h
        cases hc : collect_source_files fs dep root a.package_id c (pathToStr dep) with
        | error e => rw [hc] at h; exact absurd h (by simp [Except.map])
        | ok pr =>
          rw [hc] at h
          simp only [Except.map, Except.ok.injEq] at h
          have hc2 : collect_source_files fs dep root a.package_id c
              (pathToStr dep) = Except.ok (pr.1, pr.2) := by rw [hc]
          obtain ⟨pk, files, _, _, hcs⟩ := collect_ok_spec hc2
          subst h
          rw [hcs]
          refine ⟨rfl, rfl, fun r hr => ?_⟩
          rcases List.mem_append.mp hr with hold | hnew
          · exact Or.inl hold
          · obtain ⟨f, _, hf'⟩ := List.mem_map.mp hnew
            exact Or.inr (by rw [← hf'])

theorem processExecutable_ok_spec {fs : FS} {pkg : MetaPackage} {a : Artifact}
    {c c' : CargoBuildInfo} (h : processExecutable fs pkg a c = Except.ok c') :
    c'.packages = c.packages ∧
    ∀ r ∈ c'.relationships,
      r ∈ c.relationships ∨ r.relationship_type = RelationshipType.contains := by
  unfold processExecutable at h
  cases he : a.executable with
  | none =>
    rw [he] at h
    dsimp only at h
    simp only [Except.ok.injEq] at h
    subst h
    exact ⟨rfl, fun r hr => Or.inl hr⟩
  | some exe =>
    rw [he] at h
    dsimp only at h
    cases hp : pkg.manifest_path.parent with
    | none => rw [hp] at h; exact absurd h (by simp)
    | some root =>
      rw [hp] at h
      dsimp only at h
      set cb := { c with binaries := c.binaries ++ [(exe, a.package_id)] }
        with hcb
      cases hc : collect_source_files fs (exe.appendToName ".d") root
          a.package_id cb (pathToStr exe) with
      | error e => rw [hc] at h; exact absurd h (by simp [Except.map])
      | ok pr =>
        rw [hc] at h
        simp only [Except.map, Except.ok.injEq] at h
        have hc2 : collect_source_files fs (exe.appendToName ".d") root
            a.package_id cb (pathToStr exe) = Except.ok (pr.1, pr.2) := by rw [hc]
        obtain ⟨pk, files, _, _, hcs⟩ := collect_ok_spec hc2
        subst h
        rw [hcs]
        refine ⟨rfl, fun r hr => ?_⟩
        rcases List.mem_append.mp hr with hold | hnew
        · exact Or.inl hold
        · obtain ⟨f, _, hf'⟩ := List.mem_map.mp hnew
          exact Or.inr (by rw [← hf'])

theorem processTail_ok_spec {fs : FS} {pkg : MetaPackage} {a : Artifact}
    {c0 c' : CargoBuildInfo}
    (h : (match processRmeta fs pkg a c0 with
          | Except.error e => Except.error e
          | Except.ok cc => processExecutable fs pkg a cc) = Except.ok c') :
    c'.packages = c0.packages ∧
    ∀ r ∈ c'.relationships,
      r ∈ c0.relationships ∨ r.relationship_type = RelationshipType.contains := by
  cases hr : processRmeta fs pkg a c0 with
  | error e => rw [hr] at h; exact absurd h (by simp)
  | ok c1 =>
    rw [hr] at h
    dsimp only at h
    obtain ⟨h1pk, _, h1rel⟩ := processRmeta_ok_spec hr
    obtain ⟨h2pk, h2rel⟩ := processExecutable_ok_spec h
    constructor
    · rw [h2pk, h1pk]
    · intro r hmem
      rcases h2rel r hmem with h2 | h2
      · exact h1rel r h2
      · exact Or.inr h2

theorem processArtifact_ok_spec {metadata : PackageId → MetaPackage} {fs : FS}
    {c c' : CargoBuildInfo} {a : Artifact}
    (h : processArtifact metadata fs c a = Except.ok c') :
    c'.packages =
      insertNew c.packages a.package_id
        (Package.fromMeta (metadata a.package_id)) ∧
    ∀ r ∈ c'.relationships,
      r ∈ c.relationships ∨ r.relationship_type = RelationshipType.contains := by
  unfold processArtifact at h
  dsimp only at h
  by_cases hq : (lookupId a.package_id c.packages).isSome = true
  · rw [if_pos hq] at h
    obtain ⟨hpk, hrel⟩ := processTail_ok_spec h
    rw [insertNew, if_pos hq]
    exact ⟨hpk, hrel⟩
  · rw [if_neg hq] at h
    obtain ⟨hpk, hrel⟩ := processTail_ok_spec h
    rw [insertNew, if_neg hq]
    exact ⟨hpk, hrel⟩

theorem runArtifacts_ok_lookup {metadata : PackageId → MetaPackage} {fs : FS}
    (arts : List Artifact) :
    ∀ c c', runArtifacts metadata fs c arts = Except.ok c' →
    ∀ pid, lookupId pid c'.packages =
      if (lookupId pid c.packages).isSome then lookupId pid c.packages
      else if arts.any (fun a => a.package_id == pid) then
        some (Package.fromMeta (metadata pid))
      else none := by
  induction arts with
  | nil =>
    intro c c' h pid
    unfold runArtifacts at h
    simp only [Except.ok.injEq] at h
    subst h
    cases ho : lookupId pid c.packages <;> simp [ho]
  | cons a rest ih =>
    intro c c' h pid
    unfold runArtifacts at h
    cases hp : processArtifact metadata fs c a with
    | error e => rw [hp] at h; exact absurd h (by simp)
    | ok c1 =>
      rw [hp] at h
      dsimp only at h
      have hstep := (processArtifact_ok_spec hp).1
      have hrun := ih c1 c' h pid
      rw [hstep, lookupId_insertNew] at hrun
      by_cases h0 : (lookupId pid c.packages).isSome = true
      · rw [if_pos h0] at hrun
        rw [hrun, if_pos h0, if_pos h0]
      · rw [if_neg h0] at hrun
        rw [if_neg h0]
        by_cases hpq : pid = a.package_id
        · subst hpq
          simp only [if_pos rfl, Option.isSome_some, if_true] at hrun
          rw [hrun]
          simp [List.any_cons]
        · rw [if_neg hpq] at hrun
          simp only [Option.isSome_none, Bool.false_eq_true, if_false] at hrun
          rw [hrun]
          have hqp : (a.package_id == pid) = false := by
            simp only [beq_eq_false_iff_ne, ne_eq]
            exact fun hx => hpq hx.symm
          simp [List.any_cons, hqp]

theorem runArtifacts_ok_nodupKeys {metadata : PackageId → MetaPackage}
    {fs : FS} (arts : List Artifact) :
    ∀ c c', runArtifacts metadata fs c arts = Except.ok c' →
    (c.packages.map Prod.fst).Nodup → (c'.packages.map Prod.fst).Nodup := by
  induction arts with
  | nil =>
    intro c c' h hn
    unfold runArtifacts at h
    simp only [Except.ok.injEq] at h
    subst h
    exact hn
  | cons a rest ih =>
    intro c c' h hn
    unfold runArtifacts at h
    cases hp : processArtifact metadata fs c a with
    | error e => rw [hp] at h; exact absurd h (by simp)
    | ok c1 =>
      rw [hp] at h
      dsimp only at h
      have hstep := (processArtifact_ok_spec hp).1
      refine ih c1 c' h ?_
      rw [hstep]
      exact insertNew_nodupKeys _ _ _ hn

theorem runArtifacts_ok_values {metadata : PackageId → MetaPackage}
    {fs : FS} (arts : List Artifact) :
    ∀ c c', runArtifacts metadata fs c arts = Except.ok c' →
    (∀ kv ∈ c.packages, kv.2 = Package.fromMeta (metadata kv.1)) →
    ∀ kv ∈ c'.packages, kv.2 = Package.fromMeta (metadata kv.1) := by
  induction arts with
  | nil =>
    intro c c' h hv
    unfold runArtifacts at h
    simp only [Except.ok.injEq] at h
    subst h
    exact hv
  | cons a rest ih =>
    intro c c' h hv
    unfold runArtifacts at h
    cases hp : processArtifact metadata fs c a with
    | error e => rw [hp] at h; exact absurd h (by simp)
    | ok c1 =>
      rw [hp] at h
      dsimp only at h
      have hstep := (processArtifact_ok_spec hp).1
      refine ih c1 c' h ?_
      rw [hstep]
      exact insertNew_values _ _ _ metadata rfl hv

theorem runArtifacts_ok_rels {metadata : PackageId → MetaPackage}
    {fs : FS} (arts : List Artifact) :
    ∀ c c', runArtifacts metadata fs c arts = Except.ok c' →
    (∀ r ∈ c.relationships, r.relationship_type = RelationshipType.contains) →
    ∀ r ∈ c'.relationships, r.relationship_type = RelationshipType.contains := by
  induction arts with
  | nil =>
    intro c c' h hv
    unfold runArtifacts at h
    simp only [Except.ok.injEq] at h
    subst h
    exact hv
  | cons a rest ih =>
    intro c c' h hv
    unfold runArtifacts at h
    cases hp : processArtifact metadata fs c a with
    | error e => rw [hp] at h; exact absurd h (by simp)
    | ok c1 =>
      rw [hp] at h
      dsimp only at h
      have hstep := (processArtifact_ok_spec hp).2
      refine ih c1 c' h ?_
      intro r hr
      rcases hstep r hr with hin | hty
      · exact hv r hin
      · exact hty

/-! ## Claims -/

/-- C1: the Checksum Engine is claimed to return a SHA-1 and a SHA-256
digest of the file content, each equal to the reference digest of the
full content under its algorithm.  The code never streams the content
into the SHA-1 hasher (`io::copy` only feeds `sha256`), so the first
returned entry is the SHA-1 digest of the empty byte string for every
input; on the one-byte content `a` (0x61) it differs from the reference
SHA-1 digest of the content, while the SHA-256 entry is correct. -/
theorem c1_sha1_digest_ignores_content :
    (∀ content : List Nat, calculate_checksums content =
      [{ algorithm := Algorithm.sha1
       , checksum_value := hexEncode (sha1Hash []) },
       { algorithm := Algorithm.sha256
       , checksum_value := hexEncode (sha256Hash content) }]) ∧
    (calculate_checksums [97]).map FileChecksum.checksum_value ≠
      [hexEncode (sha1Hash [97]), hexEncode (sha256Hash [97])] := by
  refine ⟨fun content => rfl, ?_⟩
  decide

/-- C2: when the build-driver subprocess exits with a non-zero status
(or no status) after its output is drained successfully, the invocation
terminates with that exit code (1 when no code is available) and
assembles no document: document assembly runs only on a successful
exit. -/
theorem c2_nonzero_exit_no_document (metadata : PackageId → MetaPackage)
    (fs : FS) (msgs : List (Option Artifact)) (exit_code : Option Nat)
    (info : CargoBuildInfo)
    (hok : process_json_messages metadata fs msgs = Except.ok info)
    (hcode : exit_code ≠ some 0) :
    build metadata fs msgs exit_code = BuildResult.exited (exit_code.getD 1) := by
  unfold build
  rw [hok]
  dsimp only
  rw [if_pos hcode]

/-- Witness for C2 at a concrete run: an empty event stream and child
exit code 2 make the invocation exit with code 2. -/
theorem c2_nonzero_exit_no_document_witness :
    process_json_messages meta0 fsEmpty [] = Except.ok CargoBuildInfo.empty ∧
    build meta0 fsEmpty [] (some 2) = BuildResult.exited 2 :=
  ⟨rfl, c2_nonzero_exit_no_document meta0 fsEmpty [] (some 2)
    CargoBuildInfo.empty rfl (by decide)⟩

/-- C9: a stdout line that does not parse as an artifact event is
skipped: the correlation result on any stream containing it equals the
result on the stream without it — no error and no state change. -/
theorem c9_malformed_line_skipped (metadata : PackageId → MetaPackage)
    (fs : FS) (xs ys : List (Option Artifact)) :
    process_json_messages metadata fs (xs ++ none :: ys) =
      process_json_messages metadata fs (xs ++ ys) := by
  unfold process_json_messages
  congr 1
  simp [List.filterMap_append]

/-- C10: `rmeta_to_dep_info` succeeds exactly when the rmeta path has a
file name starting with `lib`; an artifact event whose (first) rmeta
file violates that precondition makes the correlator panic rather than
return an error. -/
theorem c10_rmeta_without_lib_panics :
    (∀ p : Path, (rmeta_to_dep_info p).isSome = libNameOk p.fileName) ∧
    (∀ (metadata : PackageId → MetaPackage) (fs : FS)
       (c : CargoBuildInfo) (a : Artifact) (rmeta : Path),
      a.filenames.find? (fun f => Path.ext f = some "rmeta") = some rmeta →
      libNameOk rmeta.fileName = false →
      processArtifact metadata fs c a = Except.error BuildErr.panic) := by
  constructor
  · intro p
    unfold rmeta_to_dep_info libNameOk
    cases hp : p.fileName with
    | none => rfl
    | some n => by_cases hl : strStartsWith n "lib" = true <;> simp [hl]
  · intro metadata fs c a rmeta hfind hlib
    have hlib' : ∀ n, rmeta.fileName = some n →
        strStartsWith n "lib" = false := by
      intro n hn
      unfold libNameOk at hlib
      rw [hn] at hlib
      exact hlib
    have hdep : rmeta_to_dep_info rmeta = none := by
      unfold rmeta_to_dep_info
      cases hn : rmeta.fileName with
      | none => rfl
      | some n => simp [hlib' n hn]
    have hrm : ∀ c0, processRmeta fs (metadata a.package_id) a c0 =
        Except.error BuildErr.panic := by
      intro c0
      unfold processRmeta
      rw [hfind]
      dsimp only
      rw [hdep]
    unfold processArtifact
    dsimp only
    by_cases hq : (lookupId a.package_id c.packages).isSome = true
    · rw [if_pos hq, hrm]
    · rw [if_neg hq, hrm]

/-- Witness for C10 at concrete inputs: the rmeta file name
`foo.rmeta` lacks the `lib` prefix, so its dep-info derivation fails and
processing the event panics. -/
theorem c10_rmeta_without_lib_panics_witness :
    (rmeta_to_dep_info ⟨true, ["pkg", "foo.rmeta"]⟩).isSome =
      libNameOk (Path.fileName ⟨true, ["pkg", "foo.rmeta"]⟩) ∧
    processArtifact meta0 fsEmpty CargoBuildInfo.empty artNoLib =
      Except.error BuildErr.panic :=
  ⟨c10_rmeta_without_lib_panics.1 ⟨true, ["pkg", "foo.rmeta"]⟩,
   c10_rmeta_without_lib_panics.2 meta0 fsEmpty CargoBuildInfo.empty artNoLib
     ⟨true, ["pkg", "foo.rmeta"]⟩ (by decide) (by decide)⟩

/-- Every character surviving `sanitize` satisfies the keep condition:
kept characters satisfy it by the branch test, replaced characters are
the dash, which satisfies it too. -/
theorem sanitize_all_keepChar (s : String) :
    (sanitize s).data.all keepChar = true := by
  unfold sanitize
  show (s.data.map (fun c => if keepChar c then c else '-')).all keepChar = true
  rw [List.all_map]
  rw [List.all_eq_true]
  intro c _
  by_cases hc : keepChar c = true
  · simp only [Function.comp_apply, if_pos hc]
    exact hc
  · simp only [Function.comp_apply, if_neg hc]
    decide

/-- C4 counterexample: the listing file names two source files, of
which `/pkg/b.rs` is unreadable; the lookup succeeds anyway, records the
single readable file and one relationship, and reports no I/O error —
the unreadable file is silently omitted rather than failing the run. -/
theorem c4_unreadable_source_silently_omitted :
    ((splitWs "/pkg/foo.d: /pkg/a.rs /pkg/b.rs").drop 1).length = 2 ∧
    fsDrop.read ⟨true, ["pkg", "b.rs"]⟩ = none ∧
    (collect_source_files fsDrop depFoo ⟨true, ["pkg"]⟩ "p1" cWithP1
        "/pkg/foo.d").toOption.map
      (fun r => (r.1.source_files.map File.file_name,
                 r.1.relationships.length, r.2.length)) =
    some (["a.rs"], 1, 0) := by
  refine ⟨by decide, by decide, ?_⟩
  decide

/-- C4 amended: once the listing file itself opens, `collect_source_files`
always succeeds — a listed source path that cannot be read never raises
an I/O error (its record is silently discarded); only a failure to open
the listing file is fatal. -/
theorem c4_amended_listing_open_is_only_io_error
    (fs : FS) (dep root : Path) (pid : PackageId) (c : CargoBuildInfo)
    (key : String) (pk : Package) (lines : List String)
    (hpk : lookupId pid c.packages = some pk)
    (hread : fs.read dep = some lines) :
    ∃ c', collect_source_files fs dep root pid c key =
      Except.ok (c', []) := by
  unfold collect_source_files
  rw [hpk, hread]
  exact ⟨_, rfl⟩

/-- Witness for the amended C4 at the concrete file system whose listing
names an unreadable source file. -/
theorem c4_amended_listing_open_is_only_io_error_witness :
    lookupId "p1" cWithP1.packages = some (Package.fromMeta mpkg) ∧
    fsDrop.read depFoo = some ["/pkg/foo.d: /pkg/a.rs /pkg/b.rs"] ∧
    ∃ c', collect_source_files fsDrop depFoo ⟨true, ["pkg"]⟩ "p1" cWithP1
      "/pkg/foo.d" = Except.ok (c', []) :=
  ⟨rfl, rfl,
   c4_amended_listing_open_is_only_io_error fsDrop depFoo ⟨true, ["pkg"]⟩
     "p1" cWithP1 "/pkg/foo.d" (Package.fromMeta mpkg)
     ["/pkg/foo.d: /pkg/a.rs /pkg/b.rs"] rfl rfl⟩

/-- C5 counterexample: when the listing file was never generated (the
path is absent from the file system), the Resolver does not return an
empty list — it fails with a fatal I/O error carrying the listing
path. -/
theorem c5_missing_listing_file_io_error :
    collect_source_files fsEmpty depFoo ⟨true, ["pkg"]⟩ "p1" cWithP1
      "/pkg/foo.d" = Except.error (BuildErr.ioError depFoo) := by
  rfl

/-- C5 amended: when the listing file exists but contains no line whose
prefix matches the search key, the Resolver returns the collector
unchanged — an empty file list, no appended relationship and no
error.  (A listing that was never generated is instead a fatal I/O
error.) -/
theorem c5_amended_no_matching_line_yields_empty
    (fs : FS) (dep root : Path) (pid : PackageId) (c : CargoBuildInfo)
    (key : String) (pk : Package) (lines : List String)
    (hpk : lookupId pid c.packages = some pk)
    (hread : fs.read dep = some lines)
    (hmiss : lines.find? (fun line => strStartsWith line key) = none) :
    collect_source_files fs dep root pid c key = Except.ok (c, []) := by
  unfold collect_source_files
  rw [hpk]
  dsimp only
  rw [hread]
  dsimp only
  rw [hmiss]
  simp

/-- Witness for the amended C5 at a concrete listing with no matching
line. -/
theorem c5_amended_no_matching_line_yields_empty_witness :
    lookupId "p1" cWithP1.packages = some (Package.fromMeta mpkg) ∧
    fsNoMatch.read depFoo = some ["other: x"] ∧
    ["other: x"].find? (fun line => strStartsWith line "/pkg/foo.d") = none ∧
    collect_source_files fsNoMatch depFoo ⟨true, ["pkg"]⟩ "p1" cWithP1
      "/pkg/foo.d" = Except.ok (cWithP1, []) :=
  ⟨rfl, rfl, by decide,
   c5_amended_no_matching_line_yields_empty fsNoMatch depFoo ⟨true, ["pkg"]⟩
     "p1" cWithP1 "/pkg/foo.d" (Package.fromMeta mpkg) ["other: x"]
     rfl rfl (by decide)⟩

/-- C7 counterexample: the é of `café.rs` is alphanumeric for Rust's
`char::is_alphanumeric`, so the derived identifier keeps it and is not
drawn from the spec's ASCII set `[A-Za-z0-9.-]`. -/
theorem c7_unicode_char_kept :
    (File.try_from_file fsCafe pathCafe ⟨true, ["pkg"]⟩ FileType.source
        none none).toOption.map
      (fun f => (f.spdxid, f.spdxid.data.all specLegalChar)) =
    some ("SPDXRef-File-café.rs", false) := by
  decide

/-- C7 amended: every identifier produced by `File::try_from_file` is
drawn from the set of characters that are alphanumeric in the Unicode
sense of Rust's `char::is_alphanumeric`, dashes, and dots — every input
character outside that set is replaced with a dash. -/
theorem c7_amended_identifier_charset (fs : FS) (path root : Path)
    (ft : FileType) (pn pv : Option String) :
    spdxidLegal (File.try_from_file fs path root ft pn pv) = true := by
  unfold File.try_from_file
  cases hd : diff_utf8_paths path root with
  | none => rfl
  | some rel =>
    dsimp only
    cases hr : fs.read path with
    | none => rfl
    | some lines =>
      dsimp only
      unfold spdxidLegal
      exact sanitize_all_keepChar _

/-- C3: whenever the event stream references a package identifier at
least once and correlation completes, the package map holds exactly one
record under that identifier, namely the record derived from the
resolver metadata by the first referencing event; later events neither
insert nor replace it. -/
theorem c3_package_record_inserted_once (metadata : PackageId → MetaPackage)
    (fs : FS) (msgs : List (Option Artifact)) (pid : PackageId)
    (info : CargoBuildInfo)
    (hok : process_json_messages metadata fs msgs = Except.ok info)
    (href : (msgs.filterMap id).any (fun a => a.package_id == pid) = true) :
    (info.packages.map Prod.fst).count pid = 1 ∧
    lookupId pid info.packages = some (Package.fromMeta (metadata pid)) := by
  unfold process_json_messages at hok
  have hlook := runArtifacts_ok_lookup (msgs.filterMap id)
    CargoBuildInfo.empty info hok pid
  have h0 : lookupId pid CargoBuildInfo.empty.packages = none := rfl
  rw [h0] at hlook
  simp only [Option.isSome_none, Bool.false_eq_true, if_false, href,
    if_true] at hlook
  have hnd := runArtifacts_ok_nodupKeys (msgs.filterMap id)
    CargoBuildInfo.empty info hok (by simp [CargoBuildInfo.empty])
  refine ⟨?_, hlook⟩
  have hmem : pid ∈ info.packages.map Prod.fst := by
    rw [← lookupId_isSome_iff, hlook]
    rfl
  exact List.count_eq_one_of_mem hnd hmem

/-- Witness for C3 at a concrete stream referencing `p1` twice. -/
theorem c3_package_record_inserted_once_witness :
    process_json_messages meta0 fsEmpty [some artPlain, some artPlain] =
      Except.ok ⟨[("p1", Package.fromMeta mpkg)], [], [], []⟩ ∧
    (([some artPlain, some artPlain].filterMap id).any
      (fun a => a.package_id == "p1")) = true ∧
    ((([("p1", Package.fromMeta mpkg)] :
        List (PackageId × Package)).map Prod.fst).count "p1" = 1 ∧
      lookupId "p1" [("p1", Package.fromMeta mpkg)] =
        some (Package.fromMeta (meta0 "p1"))) :=
  ⟨rfl, by decide,
   c3_package_record_inserted_once meta0 fsEmpty [some artPlain, some artPlain]
     "p1" ⟨[("p1", Package.fromMeta mpkg)], [], [], []⟩ rfl (by decide)⟩

/-- C6: for a binary discovered in a completed run, the assembled
document's relationship list contains exactly one *generated-from*
relationship — from the binary's own file record (the last file record
of the document) to the producing package — and the *depends-on*
relationships are exactly one per package of the whole correlation's
package map, each from the binary's file record. -/
theorem c6_relationship_counts (metadata : PackageId → MetaPackage)
    (fs : FS) (msgs : List (Option Artifact)) (binary : Path)
    (pid : PackageId) (info : CargoBuildInfo) (doc : Document)
    (hok : process_json_messages metadata fs msgs = Except.ok info)
    (hbin : (binary, pid) ∈ info.binaries)
    (hdoc : produce_sbom fs binary info pid = Except.ok doc) :
    ∃ bf pk, doc.files.getLast? = some bf ∧
      lookupId pid info.packages = some pk ∧
      doc.relationships.filter
          (fun r => r.relationship_type = RelationshipType.generatedFrom) =
        [{ comment := none
         , related_spdx_element := pk.spdxid
         , relationship_type := RelationshipType.generatedFrom
         , spdx_element_id := bf.spdxid }] ∧
      doc.relationships.filter
          (fun r => r.relationship_type = RelationshipType.dependsOn) =
        info.packages.map (fun q =>
          { comment := none
          , related_spdx_element := q.2.spdxid
          , relationship_type := RelationshipType.dependsOn
          , spdx_element_id := bf.spdxid }) := by
  have hcont : ∀ r ∈ info.relationships,
      r.relationship_type = RelationshipType.contains := by
    unfold process_json_messages at hok
    exact runArtifacts_ok_rels (msgs.filterMap id) CargoBuildInfo.empty info
      hok (by intro r hr; simp [CargoBuildInfo.empty] at hr)
  unfold produce_sbom at hdoc
  cases hp : binary.parent with
  | none => rw [hp] at hdoc; exact absurd hdoc (by simp)
  | some par =>
    rw [hp] at hdoc
    dsimp only at hdoc
    cases hf : File.try_from_file fs binary par FileType.binary none none with
    | error e => rw [hf] at hdoc; exact absurd hdoc (by simp)
    | ok file =>
      rw [hf] at hdoc
      dsimp only at hdoc
      cases hl : lookupId pid info.packages with
      | none => rw [hl] at hdoc; exact absurd hdoc (by simp)
      | some pk =>
        rw [hl] at hdoc
        dsimp only at hdoc
        simp only [Except.ok.injEq] at hdoc
        subst hdoc
        refine ⟨file, pk, ?_, rfl, ?_, ?_⟩
        · exact List.getLast?_concat _
        · rw [List.filter_append, List.filter_append]
          have hA : info.relationships.filter
              (fun r => r.relationship_type =
                RelationshipType.generatedFrom) = [] := by
            rw [List.filter_eq_nil_iff]
            intro r hr
            simp [hcont r hr]
          have hD : (info.packages.map (fun q =>
              { comment := none
              , related_spdx_element := q.2.spdxid
              , relationship_type := RelationshipType.dependsOn
              , spdx_element_id := file.spdxid : Relationship })).filter
              (fun r => r.relationship_type =
                RelationshipType.generatedFrom) = [] := by
            rw [List.filter_eq_nil_iff]
            intro r hr
            obtain ⟨q, _, hq⟩ := List.mem_map.mp hr
            rw [← hq]
            simp
          rw [hA, hD]
          simp [List.filter]
        · rw [List.filter_append, List.filter_append]
          have hA : info.relationships.filter
              (fun r => r.relationship_type =
                RelationshipType.dependsOn) = [] := by
            rw [List.filter_eq_nil_iff]
            intro r hr
            simp [hcont r hr]
          have hD : (info.packages.map (fun q =>
              { comment := none
              , related_spdx_element := q.2.spdxid
              , relationship_type := RelationshipType.dependsOn
              , spdx_element_id := file.spdxid : Relationship })).filter
              (fun r => r.relationship_type =
                RelationshipType.dependsOn) =
              info.packages.map (fun q =>
              { comment := none
              , related_spdx_element := q.2.spdxid
              , relationship_type := RelationshipType.dependsOn
              , spdx_element_id := file.spdxid : Relationship }) := by
            rw [List.filter_eq_self]
            intro r hr
            obtain ⟨q, _, hq⟩ := List.mem_map.mp hr
            rw [← hq]
            simp
          rw [hA, hD]
          simp [List.filter]

/-- Witness for C6 at the concrete single-binary run. -/
theorem c6_relationship_counts_witness :
    process_json_messages meta0 fsExe [some artExe] = Except.ok infoExe ∧
    (exeApp, "p1") ∈ infoExe.binaries ∧
    produce_sbom fsExe exeApp infoExe "p1" = Except.ok docExe ∧
    (∃ bf pk, docExe.files.getLast? = some bf ∧
      lookupId "p1" infoExe.packages = some pk ∧
      docExe.relationships.filter
          (fun r => r.relationship_type = RelationshipType.generatedFrom) =
        [{ comment := none
         , related_spdx_element := pk.spdxid
         , relationship_type := RelationshipType.generatedFrom
         , spdx_element_id := bf.spdxid }] ∧
      docExe.relationships.filter
          (fun r => r.relationship_type = RelationshipType.dependsOn) =
        infoExe.packages.map (fun q =>
          { comment := none
          , related_spdx_element := q.2.spdxid
          , relationship_type := RelationshipType.dependsOn
          , spdx_element_id := bf.spdxid })) :=
  ⟨rfl, by decide, rfl,
   c6_relationship_counts meta0 fsExe [some artExe] exeApp "p1" infoExe docExe
     rfl (by decide) rfl⟩

/-- C8 counterexample: one event whose listing names the readable files
`a_b.rs` and `a-b.rs` yields two distinct file records carrying the same
sanitized identifier, so file-record identifiers are not unique. -/
theorem c8_file_identifier_collision :
    (process_json_messages meta0 fsCollide [some artRmeta]).toOption.map
      (fun info => (info.source_files.map File.spdxid,
        decide info.source_files.Nodup)) =
    some (["SPDXRef-File-mypkg-1.0.0-a-b.rs",
           "SPDXRef-File-mypkg-1.0.0-a-b.rs"], true) := by
  decide

/-- C8 amended: package records are inserted at most once per package
id, so the package ids of the map are pairwise distinct, and the package
identifiers are unique whenever distinct recorded packages derive
distinct identifier strings from the metadata; file-record identifiers
carry no such guarantee. -/
theorem c8_amended_package_identifiers_unique
    (metadata : PackageId → MetaPackage) (fs : FS)
    (msgs : List (Option Artifact)) (info : CargoBuildInfo)
    (hok : process_json_messages metadata fs msgs = Except.ok info)
    (hinj : info.packages.Pairwise (fun x y =>
      (Package.fromMeta (metadata x.1)).spdxid ≠
        (Package.fromMeta (metadata y.1)).spdxid)) :
    (info.packages.map Prod.fst).Nodup ∧
    (info.packages.map (fun kv => kv.2.spdxid)).Nodup := by
  unfold process_json_messages at hok
  have hnd := runArtifacts_ok_nodupKeys (msgs.filterMap id)
    CargoBuildInfo.empty info hok (by simp [CargoBuildInfo.empty])
  have hvals := runArtifacts_ok_values (msgs.filterMap id)
    CargoBuildInfo.empty info hok
    (by intro kv hkv; simp [CargoBuildInfo.empty] at hkv)
  refine ⟨hnd, ?_⟩
  show (info.packages.map (fun kv => kv.2.spdxid)).Pairwise
    (fun a b => a ≠ b)
  rw [List.pairwise_map]
  refine hinj.imp_of_mem ?_
  intro x y hx hy hne
  rw [hvals x hx, hvals y hy]
  exact hne

/-- Witness for the amended C8 at a concrete one-package run. -/
theorem c8_amended_package_identifiers_unique_witness :
    process_json_messages meta0 fsEmpty [some artPlain] =
      Except.ok ⟨[("p1", Package.fromMeta mpkg)], [], [], []⟩ ∧
    (([("p1", Package.fromMeta mpkg)] :
        List (PackageId × Package)).Pairwise (fun x y =>
      (Package.fromMeta (meta0 x.1)).spdxid ≠
        (Package.fromMeta (meta0 y.1)).spdxid)) ∧
    ((([("p1", Package.fromMeta mpkg)] :
        List (PackageId × Package)).map Prod.fst).Nodup ∧
      (([("p1", Package.fromMeta mpkg)] :
        List (PackageId × Package)).map (fun kv => kv.2.spdxid)).Nodup) :=
  ⟨rfl, by simp,
   c8_amended_package_identifiers_unique meta0 fsEmpty [some artPlain]
     ⟨[("p1", Package.fromMeta mpkg)], [], [], []⟩ rfl (by simp)⟩

end CargoSpdx
